import Mathlib

/-!
Shallow embedding of the trade-simulation and risk-management engine of the
Algobot repository, together with proofs about its specification.

Source files embedded here:
- `backtest/backtester.py` (class `Backtester`): `_simulate_trading`,
  `_calculate_pnl`, `_calculate_performance`;
- `risk/risk_manager.py` (class `RiskManager`): `reset_session`,
  `check_circuit_breaker`, `check_drawdown_limits`, `record_trade_result`,
  `calculate_position_size`, `can_open_position`, `calculate_portfolio_risk`,
  `update_trailing_stops` (per-position body);
- the constants of `config.py` that these functions import.

Modelling conventions:
- Python floats are modelled by `ℚ` (the claims are about exact formulas and
  branch structure, not rounding); `x / 0 = 0` in `ℚ`, and every place where
  the Python code can actually divide by zero or raise is modelled explicitly
  with `Except`.
- Python dicts that can lack keys become structures with `Option` fields; a
  lookup of a possibly missing key is an `Except` computation.
- The per-bar ATR value (`atr_series[i]`, backtester.py lines 62-71, which
  falls back to `None` when the series has no value at `i`) is carried on each
  row as an `Option ℚ`; the ATR series itself is produced by
  `utils/indicators.calculate_atr` upstream of the loop, and all theorems
  below hold for arbitrary per-bar ATR values.
- The entry blocks of `_simulate_trading` (lines 134-163 and 164-192) have a
  corrupted indentation in the repository file (the `position = {...}`
  assignment and the `self.trades.append({...})` call are dedented below their
  `if`/`elif`); the embedding follows the evident block structure of the
  `if`/`elif` chain, under which both statements belong to the corresponding
  entry branch.
-/

namespace Algobot

/-- `ATR_MULTIPLIER = 2.0` from config.py, used for trailing stops. -/
def ATR_MULTIPLIER : ℚ := 2

/-- `ATR_STOP_LOSS_MULTIPLIER = 2.0` from config.py. -/
def ATR_STOP_LOSS_MULTIPLIER : ℚ := 2

/-- `ATR_TAKE_PROFIT_MULTIPLIER = 4.0` from config.py. -/
def ATR_TAKE_PROFIT_MULTIPLIER : ℚ := 4

/-- The `'direction'` entry of a backtester position dict: `'long'` or `'short'`. -/
inductive Direction where
  | long : Direction
  | short : Direction
deriving DecidableEq

/-- A backtester position dict (built at entry, `_simulate_trading`). -/
structure Position where
  entry_time : ℕ
  entry_price : ℚ
  direction : Direction
  lot_size : ℚ
  symbol : String
  stop_loss : ℚ
  take_profit : ℚ
deriving DecidableEq

/-- A record appended to `self.trades`.  The code appends two shapes of dict:
an entry-log record at position open (keys `entry_time, symbol, direction,
entry_price, lot_size, stop_loss, take_profit, trailing_stop, entry_reason,
status`) and a closed-trade record at position close (keys `entry_time,
exit_time, symbol, direction, entry_price, exit_price, lot_size, stop_loss,
take_profit, trailing_stop, pnl, balance, exit_reason`).  Keys present in only
one shape are `Option` fields, `none` meaning the key is absent. -/
structure TradeRec where
  entry_time : ℕ
  exit_time : Option ℕ
  symbol : String
  direction : Direction
  entry_price : ℚ
  exit_price : Option ℚ
  lot_size : ℚ
  stop_loss : ℚ
  take_profit : ℚ
  trailing_stop : Option ℚ
  pnl : Option ℚ
  balance : Option ℚ
  exit_reason : Option String
  entry_reason : Option String
  status : Option String
deriving DecidableEq

/-- One element of `self.equity_curve`. -/
structure EquityPoint where
  time : ℕ
  balance : ℚ
  equity : ℚ
  position : Bool
deriving DecidableEq

/-- One row of the `signals` DataFrame iterated by `_simulate_trading`,
together with its index `i` and its per-bar ATR value.
`signal_cap` is the `'Signal'` column (read by the entry branches, lines 134
and 164); `signal_low` is the `'signal'` column (read by the opposite-signal
close checks, lines 99 and 108). -/
structure Row where
  time : ℕ
  close : ℚ
  signal_cap : Int
  signal_low : Int
  atr : Option ℚ
deriving DecidableEq

/-- The constructor parameters of `Backtester.__init__`. -/
structure SimConfig where
  lot_size : ℚ
  commission : ℚ
  spread : ℚ
  risk_per_trade : ℚ
  pip_value : ℚ
  max_drawdown : ℚ
deriving DecidableEq

/-- The defaults of `Backtester.__init__`: `lot_size=0.02, commission=0.0001,
spread=0.0002, risk_per_trade=0.01, pip_value=1.0, max_drawdown=0.2`. -/
def defaultConfig : SimConfig :=
  ⟨0.02, 0.0001, 0.0002, 0.01, 1, 0.2⟩

/-- The mutable local state of `_simulate_trading` plus the `self.trades` and
`self.equity_curve` lists it appends to. -/
structure SimState where
  balance : ℚ
  equity : ℚ
  position : Option Position
  trailing_stop : Option ℚ
  max_equity : ℚ
  drawdown_triggered : Bool
  trades : List TradeRec
  equity_curve : List EquityPoint
deriving DecidableEq

/-- State at the top of `_simulate_trading`: `balance = 10000`,
`equity = balance`, no position, no trailing stop, `max_equity = balance`,
`drawdown_triggered = False`, empty trade and equity-curve lists. -/
def initState : SimState :=
  ⟨10000, 10000, none, none, 10000, false, [], []⟩

/-- `Backtester._calculate_pnl` (lines 208-218): directional gross PnL at the
fixed contract size 100000, minus `commission * lot_size * 100000`. -/
def calculate_pnl (commission : ℚ) (p : Position) (current_price : ℚ) : ℚ :=
  (match p.direction with
    | .long => (current_price - p.entry_price) * p.lot_size * 100000
    | .short => (p.entry_price - current_price) * p.lot_size * 100000)
  - commission * p.lot_size * 100000

/-- Trailing-stop update of `_simulate_trading` (lines 82-89): when ATR is
available, the candidate `current_price ∓ ATR_MULTIPLIER * atr` replaces the
current trailing stop only if the current one is `None` or the candidate is
strictly better (higher for long, lower for short); when ATR is `None` the
trailing stop is left unchanged.  The two mirrored direction branches of the
source are parameterised by `dir`. -/
def newTrailingStop (dir : Direction) (ts : Option ℚ) (price : ℚ)
    (atr : Option ℚ) : Option ℚ :=
  match atr with
  | none => ts
  | some a =>
    match dir with
    | .long =>
      let nt := price - ATR_MULTIPLIER * a
      match ts with
      | none => some nt
      | some t => if t < nt then some nt else some t
    | .short =>
      let nt := price + ATR_MULTIPLIER * a
      match ts with
      | none => some nt
      | some t => if nt < t then some nt else some t

/-- Long: `trailing_stop is not None and current_price <= trailing_stop`
(line 93); short: mirrored (line 102). -/
def trailingHit (dir : Direction) (ts : Option ℚ) (price : ℚ) : Bool :=
  match ts with
  | none => false
  | some t =>
    match dir with
    | .long => if price ≤ t then true else false
    | .short => if t ≤ price then true else false

/-- Long: `current_price <= position['stop_loss']` (line 95); short:
`current_price >= position['stop_loss']` (line 104). -/
def stopLossHit (dir : Direction) (sl price : ℚ) : Bool :=
  match dir with
  | .long => if price ≤ sl then true else false
  | .short => if sl ≤ price then true else false

/-- Long: `current_price >= position['take_profit']` (line 97); short:
`current_price <= position['take_profit']` (line 106). -/
def takeProfitHit (dir : Direction) (tp price : ℚ) : Bool :=
  match dir with
  | .long => if tp ≤ price then true else false
  | .short => if price ≤ tp then true else false

/-- Long: `row['signal'] == -1` (line 99); short: `row['signal'] == 1`
(line 108). -/
def oppositeSignal (dir : Direction) (sig : Int) : Bool :=
  match dir with
  | .long => if sig = -1 then true else false
  | .short => if sig = 1 then true else false

/-- The close-condition `if/elif` chain of `_simulate_trading`
(lines 90-109), with the two mirrored direction branches parameterised by
`dir`: trailing stop, then stop loss, then take profit, then opposite
signal; the first satisfied condition gives the `close_reason`. -/
def closeReason (dir : Direction) (sl tp : ℚ) (ts : Option ℚ) (price : ℚ)
    (sig : Int) : Option String :=
  if trailingHit dir ts price then some "trailing_stop"
  else if stopLossHit dir sl price then some "stop_loss"
  else if takeProfitHit dir tp price then some "take_profit"
  else if oppositeSignal dir sig then some "opposite_signal"
  else none

/-- Spec-side definition (from the spec sentence of C1): the ordered list of
the four named close conditions, trailing_stop first. -/
def closeConditionList (dir : Direction) (sl tp : ℚ) (ts : Option ℚ)
    (price : ℚ) (sig : Int) : List (String × Bool) :=
  [("trailing_stop", trailingHit dir ts price),
   ("stop_loss", stopLossHit dir sl price),
   ("take_profit", takeProfitHit dir tp price),
   ("opposite_signal", oppositeSignal dir sig)]

/-- Spec-side definition: the name of the first satisfied condition of an
ordered condition list, `none` when no condition is satisfied. -/
def firstSatisfied : List (String × Bool) → Option String
  | [] => none
  | c :: rest => if c.2 then some c.1 else firstSatisfied rest

/-- Dynamic position sizing at entry (lines 140 and 169):
`(risk_per_trade * balance) / (stop_dist * pip_value) if stop_dist > 0 else
self.lot_size`. -/
def dynamicLotSize (risk_per_trade balance stop_dist pip_value fallback : ℚ) :
    ℚ :=
  if 0 < stop_dist then risk_per_trade * balance / (stop_dist * pip_value)
  else fallback

/-- The closed-trade dict appended to `self.trades` at close
(lines 114-128). -/
def closedTradeRec (p : Position) (row : Row) (ts : Option ℚ)
    (pnl balance : ℚ) (reason : String) : TradeRec :=
  { entry_time := p.entry_time
    exit_time := some row.time
    symbol := p.symbol
    direction := p.direction
    entry_price := p.entry_price
    exit_price := some row.close
    lot_size := p.lot_size
    stop_loss := p.stop_loss
    take_profit := p.take_profit
    trailing_stop := ts
    pnl := some pnl
    balance := some balance
    exit_reason := some reason
    entry_reason := none
    status := none }

/-- The entry-log dict appended to `self.trades` at open (lines 152-163 and
181-192); it has no `pnl`, `balance`, `exit_time`, `exit_price` or
`exit_reason` key and carries `status: 'open'`. -/
def openTradeRec (p : Position) (ts : Option ℚ) (reason : String) : TradeRec :=
  { entry_time := p.entry_time
    exit_time := none
    symbol := p.symbol
    direction := p.direction
    entry_price := p.entry_price
    exit_price := none
    lot_size := p.lot_size
    stop_loss := p.stop_loss
    take_profit := p.take_profit
    trailing_stop := ts
    pnl := none
    balance := none
    exit_reason := none
    entry_reason := some reason
    status := some "open" }

/-- `if equity > max_equity: max_equity = equity` (lines 73-74). -/
def newMaxEquity (s : SimState) : ℚ :=
  if s.max_equity < s.equity then s.equity else s.max_equity

/-- `current_drawdown = (max_equity - equity) / max_equity if max_equity > 0
else 0` (line 75), with `max_equity` already updated. -/
def runningDrawdown (s : SimState) : ℚ :=
  if 0 < newMaxEquity s then (newMaxEquity s - s.equity) / newMaxEquity s
  else 0

/-- Per-bar phase 1 (lines 72-78): update the running peak equity and set the
sticky `drawdown_triggered` flag when the running drawdown exceeds
`self.max_drawdown`.  The source guard
`if current_drawdown > self.max_drawdown and not drawdown_triggered` only
ever turns the flag on, so the flag is the disjunction below. -/
def ddPhase (cfg : SimConfig) (s : SimState) : SimState :=
  { s with
    max_equity := newMaxEquity s
    drawdown_triggered :=
      if cfg.max_drawdown < runningDrawdown s then true
      else s.drawdown_triggered }

/-- Per-bar phase 2 (lines 80-131): when a position is open, update the
trailing stop, evaluate the close conditions and, when one fires, realise the
PnL into the balance, append a closed-trade record and clear the position and
trailing stop. -/
def positionPhase (cfg : SimConfig) (s : SimState) (row : Row) : SimState :=
  match s.position with
  | none => s
  | some p =>
    let ts := newTrailingStop p.direction s.trailing_stop row.close row.atr
    match closeReason p.direction p.stop_loss p.take_profit ts row.close
        row.signal_low with
    | none => { s with trailing_stop := ts }
    | some reason =>
      let pnl := calculate_pnl cfg.commission p row.close
      let b := s.balance + pnl
      { s with
        balance := b
        equity := b
        position := none
        trailing_stop := none
        trades := s.trades ++ [closedTradeRec p row ts pnl b reason] }

/-- Entry computation of the long branch (lines 135-163): entry price is the
close plus the spread; SL/TP are ATR multiples when ATR is available and the
percentage fallback (`* 0.97` / `* 1.03`) otherwise; the lot size comes from
`dynamicLotSize`; the initial trailing stop is `entry - ATR_MULTIPLIER * atr`
or `None`. -/
def enterLong (cfg : SimConfig) (balance : ℚ) (row : Row) :
    Position × Option ℚ :=
  let entry_price := row.close + cfg.spread
  let sl := match row.atr with
    | some a => entry_price - ATR_STOP_LOSS_MULTIPLIER * a
    | none => entry_price * 0.97
  let tp := match row.atr with
    | some a => entry_price + ATR_TAKE_PROFIT_MULTIPLIER * a
    | none => entry_price * 1.03
  let stop_dist := |entry_price - sl|
  let lot := dynamicLotSize cfg.risk_per_trade balance stop_dist
    cfg.pip_value cfg.lot_size
  let ts : Option ℚ := match row.atr with
    | some a => some (entry_price - ATR_MULTIPLIER * a)
    | none => none
  (⟨row.time, entry_price, .long, lot, "symbol", sl, tp⟩, ts)

/-- Entry computation of the short branch (lines 164-192), mirroring
`enterLong` with the spread subtracted and the SL/TP signs flipped. -/
def enterShort (cfg : SimConfig) (balance : ℚ) (row : Row) :
    Position × Option ℚ :=
  let entry_price := row.close - cfg.spread
  let sl := match row.atr with
    | some a => entry_price + ATR_STOP_LOSS_MULTIPLIER * a
    | none => entry_price * 1.03
  let tp := match row.atr with
    | some a => entry_price - ATR_TAKE_PROFIT_MULTIPLIER * a
    | none => entry_price * 0.97
  let stop_dist := |entry_price - sl|
  let lot := dynamicLotSize cfg.risk_per_trade balance stop_dist
    cfg.pip_value cfg.lot_size
  let ts : Option ℚ := match row.atr with
    | some a => some (entry_price + ATR_MULTIPLIER * a)
    | none => none
  (⟨row.time, entry_price, .short, lot, "symbol", sl, tp⟩, ts)

/-- Per-bar phase 3 (lines 132-192): when the drawdown halt is not active and
no position is open, a `'Signal'` of `1` (resp. `-1`) opens a long (resp.
short) position and appends an entry-log record. -/
def entryPhase (cfg : SimConfig) (s : SimState) (row : Row) : SimState :=
  if s.drawdown_triggered then s
  else
    match s.position with
    | some _ => s
    | none =>
      if row.signal_cap = 1 then
        let e := enterLong cfg s.balance row
        { s with
          position := some e.1
          trailing_stop := e.2
          trades := s.trades ++
            [openTradeRec e.1 e.2 "Buy signal: MA crossover + filters"] }
      else if row.signal_cap = -1 then
        let e := enterShort cfg s.balance row
        { s with
          position := some e.1
          trailing_stop := e.2
          trades := s.trades ++
            [openTradeRec e.1 e.2 "Sell signal: MA crossover + filters"] }
      else s

/-- Per-bar phase 4 (lines 193-202): mark the equity to market when a
position is open and append one equity-curve point. -/
def curvePhase (cfg : SimConfig) (s : SimState) (row : Row) : SimState :=
  let eq := match s.position with
    | some p => s.balance + calculate_pnl cfg.commission p row.close
    | none => s.equity
  { s with
    equity := eq
    equity_curve := s.equity_curve ++ [⟨row.time, s.balance, eq,
      s.position.isSome⟩] }

/-- One iteration of the `for i, row in signals.iterrows()` loop of
`_simulate_trading` (lines 60-202): drawdown bookkeeping, position
management, entry handling, equity-curve update, in source order. -/
def simStep (cfg : SimConfig) (s : SimState) (row : Row) : SimState :=
  curvePhase cfg (entryPhase cfg (positionPhase cfg (ddPhase cfg s) row) row)
    row

/-- The whole of `_simulate_trading`: fold `simStep` over the signal rows
starting from `initState`. -/
def runSim (cfg : SimConfig) (rows : List Row) : SimState :=
  rows.foldl (simStep cfg) initState

/-! ## Performance evaluation (`Backtester._calculate_performance`) -/

/-- The value of the `sharpe_ratio` entry.  The source computes
`returns.mean() / returns.std() * np.sqrt(252) if returns.std() > 0 else 0`
(line 260); the nonzero value involves a real square root, so it is recorded
here by the branch taken together with the data that determines it: the mean
and the sample variance (pandas `std`, ddof = 1) of the period returns.
`returns.std() > 0` is false exactly when there are fewer than two returns
(`std` is NaN) or the sample variance is zero. -/
inductive SharpeVal where
  | zero : SharpeVal
  | val (meanRet varRet : ℚ) : SharpeVal
deriving DecidableEq

/-- The performance dict returned by `_calculate_performance`.  The
`final_balance` key is present only in the non-empty branch (lines 262-273);
the early return for an empty trade list (lines 222-231) omits it, hence the
`Option`.  The `trades` and `equity_curve` entries of the non-empty branch
are the inputs themselves and are not duplicated here. -/
structure Perf where
  total_return : ℚ
  num_trades : ℕ
  win_rate : ℚ
  avg_win : ℚ
  avg_loss : ℚ
  max_drawdown : ℚ
  sharpe_ratio : SharpeVal
  final_balance : Option ℚ
deriving DecidableEq

/-- `t['pnl']`: a KeyError when the record has no `pnl` key (the entry-log
records appended at position open). -/
def getPnl (t : TradeRec) : Except String ℚ :=
  match t.pnl with
  | some v => Except.ok v
  | none => Except.error "KeyError: pnl"

/-- Evaluate `t['pnl']` over a trade list in order, as the comprehensions of
lines 235-236 do; the first record without a `pnl` key raises. -/
def getPnls : List TradeRec → Except String (List ℚ)
  | [] => Except.ok []
  | t :: rest =>
    match t.pnl with
    | none => Except.error "KeyError: pnl"
    | some v =>
      match getPnls rest with
      | Except.error e => Except.error e
      | Except.ok vs => Except.ok (v :: vs)

/-- `np.mean` over a list of rationals (exact for the nonempty lists it is
applied to in the source). -/
def listMean (xs : List ℚ) : ℚ :=
  xs.sum / xs.length

/-- The drawdown loop of `_calculate_performance` (lines 249-256): walk the
equity values keeping the running peak and the largest `(peak - equity) /
peak`; a zero peak is a Python `ZeroDivisionError`. -/
def ddLoop : List ℚ → ℚ → ℚ → Except String ℚ
  | [], _, md => Except.ok md
  | e :: rest, peak, md =>
    let peak := if peak < e then e else peak
    if peak = 0 then Except.error "ZeroDivisionError"
    else ddLoop rest peak (max md ((peak - e) / peak))

/-- `equity_values[0]` then the drawdown loop (lines 248-256); an empty
equity curve is a Python `IndexError` at `equity_values[0]`. -/
def maxDrawdownOf (es : List ℚ) : Except String ℚ :=
  match es with
  | [] => Except.error "IndexError"
  | e0 :: _ => ddLoop es e0 0

/-- `pd.Series(es).pct_change().dropna()` (line 259): consecutive fractional
changes.  (A zero previous equity yields a non-finite float in the source;
no claim depends on that corner, and `ℚ` yields `0` there.) -/
def pctChange : List ℚ → List ℚ
  | e0 :: e1 :: rest => (e1 / e0 - 1) :: pctChange (e1 :: rest)
  | _ => []

/-- Sample variance with ddof = 1 (the square of pandas `Series.std`),
`0` when fewer than two values exist. -/
def sampleVar (xs : List ℚ) : ℚ :=
  if xs.length ≤ 1 then 0
  else ((xs.map (fun x => (x - listMean xs) ^ 2)).sum) / (xs.length - 1)

/-- `Backtester._calculate_performance` (lines 220-276).  The empty-trade
branch returns the zeroed dict of lines 223-231 (which has no
`final_balance` key).  The non-empty branch evaluates, in source order: the
winning/losing comprehensions (each `t['pnl']` can raise KeyError), the
win rate, the averages with their empty-subset fallbacks, `final_balance =
self.trades[-1]['balance']` (KeyError when the last record is an entry log),
the drawdown loop over the equity curve, and the Sharpe branch. -/
def calculate_performance (trades : List TradeRec)
    (equity_curve : List EquityPoint) : Except String Perf :=
  match trades with
  | [] => Except.ok ⟨0, 0, 0, 0, 0, 0, SharpeVal.zero, none⟩
  | t0 :: rest =>
    match getPnls (t0 :: rest) with
    | Except.error e => Except.error e
    | Except.ok pnls =>
      let total_trades := (t0 :: rest).length
      let winning := pnls.filter (fun v => if 0 < v then true else false)
      let losing := pnls.filter (fun v => if v ≤ 0 then true else false)
      let win_rate : ℚ :=
        if 0 < total_trades then (winning.length : ℚ) / total_trades else 0
      let avg_win := if winning.isEmpty then 0 else listMean winning
      let avg_loss := if losing.isEmpty then 0 else listMean losing
      match ((t0 :: rest).getLast (by simp)).balance with
      | none => Except.error "KeyError: balance"
      | some final_balance =>
        let total_return := (final_balance - 10000) / 10000
        match maxDrawdownOf (equity_curve.map (·.equity)) with
        | Except.error e => Except.error e
        | Except.ok md =>
          let rets := pctChange (equity_curve.map (·.equity))
          let sharpe :=
            if 2 ≤ rets.length ∧ 0 < sampleVar rets then
              SharpeVal.val (listMean rets) (sampleVar rets)
            else SharpeVal.zero
          Except.ok (⟨total_return, total_trades, win_rate, avg_win,
            avg_loss, md, sharpe, some final_balance⟩ : Perf)

/-! ## RiskManager (`risk/risk_manager.py`) -/

/-- An entry of `RiskManager.open_positions` (built by `add_position`); only
the fields read by the methods the claims touch are carried.  The source's
`direction` is the string `'buy'` or `'sell'`. -/
structure RMPos where
  symbol : String
  direction : String
  stop_loss : ℚ
  trailing_stop : Option ℚ
  unrealized_pnl : ℚ
deriving DecidableEq

/-- An entry of `RiskManager.trade_history` (`record_trade_result`,
lines 74-79; the wall-clock timestamp is outside the model). -/
structure RMTradeRec where
  symbol : String
  pnl : ℚ
  win_loss : String
deriving DecidableEq

/-- The state of a `RiskManager` instance (constructor lines 10-36). -/
structure RMState where
  account_balance : ℚ
  max_risk_per_trade : ℚ
  max_portfolio_risk : ℚ
  stop_loss_pct : ℚ
  take_profit_pct : ℚ
  max_positions : ℕ
  lot_size : ℚ
  max_drawdown_per_symbol : ℚ
  max_drawdown_per_session : ℚ
  circuit_breaker_losses : ℕ
  open_positions : List RMPos
  trade_history : List RMTradeRec
  session_start_balance : ℚ
  consecutive_losses : ℕ
  circuit_breaker_triggered : Bool
deriving DecidableEq

/-- The constructor defaults of `RiskManager.__init__`: balance 10000, 2%
per-trade risk, 6% portfolio risk, 30%/60% SL/TP, 10 positions, lot 0.02
(`DEFAULT_LOT_SIZE`), 5%/10% symbol/session drawdown, circuit breaker after
5 losses. -/
def rmDefault : RMState :=
  ⟨10000, 0.02, 0.06, 0.30, 0.60, 10, 0.02, 0.05, 0.10, 5, [], [], 10000, 0,
    false⟩

/-- `RiskManager.reset_session` (lines 38-43). -/
def RMState.resetSession (rm : RMState) : RMState :=
  { rm with
    session_start_balance := rm.account_balance
    consecutive_losses := 0
    circuit_breaker_triggered := false }

/-- `RiskManager.record_trade_result` (lines 72-86): append to the history,
then increment `consecutive_losses` on `'loss'` and reset it to 0 on any
other result. -/
def RMState.recordTradeResult (rm : RMState) (symbol : String) (pnl : ℚ)
    (win_loss : String) : RMState :=
  let rm := { rm with trade_history := rm.trade_history ++
    [(⟨symbol, pnl, win_loss⟩ : RMTradeRec)] }
  if win_loss = "loss" then
    { rm with consecutive_losses := rm.consecutive_losses + 1 }
  else
    { rm with consecutive_losses := 0 }

/-- `RiskManager.check_circuit_breaker` (lines 45-51): when
`consecutive_losses >= circuit_breaker_losses` it sets the
`circuit_breaker_triggered` flag and returns `False`; otherwise it returns
`True` without touching the flag.  The mutated state is returned alongside
the boolean. -/
def RMState.checkCircuitBreaker (rm : RMState) : RMState × Bool :=
  if rm.circuit_breaker_losses ≤ rm.consecutive_losses then
    ({ rm with circuit_breaker_triggered := true }, false)
  else (rm, true)

/-- `RiskManager.check_drawdown_limits` (lines 53-70): session drawdown
against `max_drawdown_per_session`, then the symbol-aggregated
`|unrealized_pnl| / account_balance` against `max_drawdown_per_symbol`. -/
def RMState.checkDrawdownLimits (rm : RMState) (symbol : String) : Bool :=
  let session_drawdown := (rm.session_start_balance - rm.account_balance) /
    rm.session_start_balance
  if rm.max_drawdown_per_session < session_drawdown then false
  else
    let symbol_positions := rm.open_positions.filter
      (fun pos => pos.symbol = symbol)
    if symbol_positions.isEmpty then true
    else
      let symbol_pnl := (symbol_positions.map (·.unrealized_pnl)).sum
      if rm.max_drawdown_per_symbol < |symbol_pnl| / rm.account_balance then
        false
      else true

/-- `RiskManager.calculate_portfolio_risk` (lines 193-205): the sum over the
open positions of `|unrealized_pnl| / account_balance`. -/
def RMState.calculatePortfolioRisk (rm : RMState) : ℚ :=
  (rm.open_positions.map
    (fun pos => |pos.unrealized_pnl| / rm.account_balance)).sum

/-- `RiskManager.can_open_position` (lines 166-191): circuit breaker first
(with its state mutation), then drawdown limits, then the position-count
limit, then the portfolio-risk limit. -/
def RMState.canOpenPosition (rm : RMState) (symbol : String) :
    RMState × Bool :=
  let cb := rm.checkCircuitBreaker
  if cb.2 = false then (cb.1, false)
  else if cb.1.checkDrawdownLimits symbol = false then (cb.1, false)
  else if cb.1.max_positions ≤ cb.1.open_positions.length then (cb.1, false)
  else if cb.1.max_portfolio_risk ≤ cb.1.calculatePortfolioRisk then
    (cb.1, false)
  else (cb.1, true)

/-- `RiskManager.calculate_position_size` (lines 88-96): the body assigns
`lot_size = 0.01` and returns it; every parameter (`entry_price`,
`stop_loss_price`, `symbol_info`, `atr`, `risk_percent`) and the whole
manager state are unused, and the `except` fallback to `self.lot_size` is
unreachable because the `try` body cannot raise. -/
def RMState.calculatePositionSize (_rm : RMState)
    (_entry_price _stop_loss_price : ℚ) (_symbol_info _atr _risk_percent :
    Option ℚ) : ℚ :=
  0.01

/-- Per-position body of `RiskManager.update_trailing_stops`
(lines 242-258): for `'buy'` the stop moves to
`price - ATR_MULTIPLIER * atr` only when that is higher than the current
stop; for any other direction it moves to `price + ATR_MULTIPLIER * atr`
only when lower.  Returns the position's new `stop_loss`. -/
def rmTrailingUpdate (direction : String) (stop_loss price atr_val : ℚ) : ℚ :=
  if direction = "buy" then
    let nt := price - ATR_MULTIPLIER * atr_val
    if stop_loss < nt then nt else stop_loss
  else
    let nt := price + ATR_MULTIPLIER * atr_val
    if nt < stop_loss then nt else stop_loss

/-! ## Spec-side predicates and concrete fixtures -/

/-- Spec-side: one trailing-stop transition is an improvement (or a first
value): for a long position the stop never moves down, for a short position
never up, and an already-set stop is never discarded. -/
def trailImproves : Direction → Option ℚ → Option ℚ → Prop
  | _, none, _ => True
  | .long, some a, some b => a ≤ b
  | .long, some _, none => False
  | .short, some a, some b => b ≤ a
  | .short, some _, none => False

/-- Spec-side: `sign(direction)` of the C7 PnL formula. -/
def dirSign : Direction → ℚ
  | .long => 1
  | .short => -1

/-- The sum of `pnl` over a trade list; entry-log records carry no `pnl` key
and contribute nothing. -/
def totalPnl (ts : List TradeRec) : ℚ :=
  (ts.map (fun t => t.pnl.getD 0)).sum

/-- Fixture: an open long position (entry 100, SL 90, TP 120, 1 lot). -/
def samplePos : Position :=
  ⟨0, 100, .long, 1, "symbol", 90, 120⟩

/-- Fixture: a state holding `samplePos` with trailing stop 95. -/
def sampleOpenState : SimState :=
  ⟨10000, 10000, some samplePos, some 95, 10000, false, [], []⟩

/-- Fixture: `sampleOpenState` with the drawdown halt already active. -/
def sampleHaltState : SimState :=
  { sampleOpenState with drawdown_triggered := true }

/-- Fixture: a neutral bar at price 101 with ATR 2. -/
def sampleRow : Row :=
  ⟨1, 101, 0, 0, some 2⟩

/-- Fixture: a bar at price 80 (below the trailing stop of
`sampleOpenState`) with ATR 2. -/
def sampleCloseRow : Row :=
  ⟨2, 80, 0, 0, some 2⟩

/-- Fixture: a single bar at price 100 carrying a buy `'Signal'` with no ATR
available; running the simulation on it opens a position and appends exactly
one entry-log record (which has no `pnl` key). -/
def buyBar : Row :=
  ⟨0, 100, 1, 0, none⟩

/-- Fixture: record one losing trade on the default `RiskManager`. -/
def recLoss (rm : RMState) : RMState :=
  rm.recordTradeResult "XAUUSD" (-50) "loss"

/-- Fixture: the default `RiskManager` after five consecutive losing trades
(its `circuit_breaker_losses` threshold). -/
def rmAfterFiveLosses : RMState :=
  recLoss (recLoss (recLoss (recLoss (recLoss rmDefault))))

/-! ## Helper lemmas -/

lemma totalPnl_append (l : List TradeRec) (r : TradeRec) :
    totalPnl (l ++ [r]) = totalPnl l + r.pnl.getD 0 := by
  simp [totalPnl]

lemma ddPhase_balance (cfg : SimConfig) (s : SimState) :
    (ddPhase cfg s).balance = s.balance := rfl

lemma ddPhase_position (cfg : SimConfig) (s : SimState) :
    (ddPhase cfg s).position = s.position := rfl

lemma ddPhase_trailing (cfg : SimConfig) (s : SimState) :
    (ddPhase cfg s).trailing_stop = s.trailing_stop := rfl

lemma ddPhase_trades (cfg : SimConfig) (s : SimState) :
    (ddPhase cfg s).trades = s.trades := rfl

lemma ddPhase_flag_of_true (cfg : SimConfig) (s : SimState)
    (h : s.drawdown_triggered = true) :
    (ddPhase cfg s).drawdown_triggered = true := by
  simp [ddPhase, h]

lemma positionPhase_preserved (cfg : SimConfig) (s : SimState) (row : Row) :
    (positionPhase cfg s row).drawdown_triggered = s.drawdown_triggered ∧
    (positionPhase cfg s row).max_equity = s.max_equity ∧
    (positionPhase cfg s row).equity_curve = s.equity_curve := by
  unfold positionPhase
  split
  · exact ⟨rfl, rfl, rfl⟩
  · dsimp only
    split
    · exact ⟨rfl, rfl, rfl⟩
    · exact ⟨rfl, rfl, rfl⟩

lemma positionPhase_shape (cfg : SimConfig) (s : SimState) (row : Row) :
    (positionPhase cfg s row).position = s.position ∧
      (positionPhase cfg s row).balance = s.balance ∧
      (positionPhase cfg s row).trades = s.trades ∨
    (positionPhase cfg s row).position = none ∧
      ∃ rec : TradeRec, rec.status = none ∧
        (positionPhase cfg s row).trades = s.trades ++ [rec] := by
  unfold positionPhase
  split
  · exact Or.inl ⟨rfl, rfl, rfl⟩
  · dsimp only
    split
    · exact Or.inl ⟨rfl, rfl, rfl⟩
    · exact Or.inr ⟨rfl, _, rfl, rfl⟩

lemma positionPhase_conserves (cfg : SimConfig) (s : SimState) (row : Row) :
    (positionPhase cfg s row).balance -
      totalPnl (positionPhase cfg s row).trades =
    s.balance - totalPnl s.trades := by
  unfold positionPhase
  split
  · rfl
  · dsimp only
    split
    · rfl
    · simp only [totalPnl_append, closedTradeRec, Option.getD_some]
      ring

lemma entryPhase_preserved (cfg : SimConfig) (s : SimState) (row : Row) :
    (entryPhase cfg s row).balance = s.balance ∧
    (entryPhase cfg s row).equity = s.equity ∧
    (entryPhase cfg s row).drawdown_triggered = s.drawdown_triggered ∧
    (entryPhase cfg s row).max_equity = s.max_equity ∧
    (entryPhase cfg s row).equity_curve = s.equity_curve := by
  unfold entryPhase
  split
  · exact ⟨rfl, rfl, rfl, rfl, rfl⟩
  · split
    · exact ⟨rfl, rfl, rfl, rfl, rfl⟩
    · split
      · exact ⟨rfl, rfl, rfl, rfl, rfl⟩
      · split
        · exact ⟨rfl, rfl, rfl, rfl, rfl⟩
        · exact ⟨rfl, rfl, rfl, rfl, rfl⟩

lemma entryPhase_of_flag (cfg : SimConfig) (s : SimState) (row : Row)
    (h : s.drawdown_triggered = true) :
    entryPhase cfg s row = s := by
  unfold entryPhase
  simp [h]

lemma entryPhase_of_some (cfg : SimConfig) (s : SimState) (row : Row)
    (p : Position) (h : s.position = some p) :
    entryPhase cfg s row = s := by
  unfold entryPhase
  split
  · rfl
  · rw [h]

lemma entryPhase_trades_shape (cfg : SimConfig) (s : SimState) (row : Row) :
    (entryPhase cfg s row).trades = s.trades ∨
    ∃ rec : TradeRec, rec.pnl = none ∧ rec.status = some "open" ∧
      (entryPhase cfg s row).trades = s.trades ++ [rec] := by
  unfold entryPhase
  split
  · exact Or.inl rfl
  · split
    · exact Or.inl rfl
    · split
      · exact Or.inr ⟨_, rfl, rfl, rfl⟩
      · split
        · exact Or.inr ⟨_, rfl, rfl, rfl⟩
        · exact Or.inl rfl

lemma curvePhase_preserved (cfg : SimConfig) (s : SimState) (row : Row) :
    (curvePhase cfg s row).balance = s.balance ∧
    (curvePhase cfg s row).position = s.position ∧
    (curvePhase cfg s row).trailing_stop = s.trailing_stop ∧
    (curvePhase cfg s row).drawdown_triggered = s.drawdown_triggered ∧
    (curvePhase cfg s row).max_equity = s.max_equity ∧
    (curvePhase cfg s row).trades = s.trades :=
  ⟨rfl, rfl, rfl, rfl, rfl, rfl⟩

lemma simStep_flag_eq (cfg : SimConfig) (s : SimState) (row : Row) :
    (simStep cfg s row).drawdown_triggered =
      (ddPhase cfg s).drawdown_triggered := by
  unfold simStep
  rw [(curvePhase_preserved cfg _ row).2.2.2.1,
    (entryPhase_preserved cfg _ row).2.2.1,
    (positionPhase_preserved cfg _ row).1]

lemma simStep_flag_of_true (cfg : SimConfig) (s : SimState) (row : Row)
    (h : s.drawdown_triggered = true) :
    (simStep cfg s row).drawdown_triggered = true := by
  rw [simStep_flag_eq]
  exact ddPhase_flag_of_true cfg s h

lemma simStep_conserves (cfg : SimConfig) (s : SimState) (row : Row) :
    (simStep cfg s row).balance - totalPnl (simStep cfg s row).trades =
      s.balance - totalPnl s.trades := by
  unfold simStep
  rw [(curvePhase_preserved cfg _ row).1,
    (curvePhase_preserved cfg _ row).2.2.2.2.2]
  rcases entryPhase_trades_shape cfg (positionPhase cfg (ddPhase cfg s) row)
      row with h | ⟨rec, hpnl, _, h⟩ <;>
    rw [(entryPhase_preserved cfg _ row).1, h]
  · exact positionPhase_conserves cfg (ddPhase cfg s) row
  · rw [totalPnl_append, hpnl]
    simpa using positionPhase_conserves cfg (ddPhase cfg s) row

lemma foldl_conserves (cfg : SimConfig) :
    ∀ (rows : List Row) (s : SimState),
      (rows.foldl (simStep cfg) s).balance -
        totalPnl (rows.foldl (simStep cfg) s).trades =
      s.balance - totalPnl s.trades
  | [], _ => rfl
  | r :: rs, s => by
    simp only [List.foldl_cons]
    rw [foldl_conserves cfg rs (simStep cfg s r), simStep_conserves]

lemma foldl_flag_of_true (cfg : SimConfig) :
    ∀ (rows : List Row) (s : SimState), s.drawdown_triggered = true →
      (rows.foldl (simStep cfg) s).drawdown_triggered = true
  | [], _, h => h
  | r :: rs, s, h => by
    simp only [List.foldl_cons]
    exact foldl_flag_of_true cfg rs (simStep cfg s r)
      (simStep_flag_of_true cfg s r h)

lemma newTrailingStop_improves (dir : Direction) (ts : Option ℚ) (price : ℚ)
    (atr : Option ℚ) :
    trailImproves dir ts (newTrailingStop dir ts price atr) := by
  cases atr with
  | none =>
    cases ts with
    | none => simp [trailImproves]
    | some t => cases dir <;> simp [newTrailingStop, trailImproves]
  | some a =>
    cases ts with
    | none => cases dir <;> simp [newTrailingStop, trailImproves]
    | some t =>
      cases dir <;> simp only [newTrailingStop] <;> split <;>
        simp [trailImproves] <;> linarith

lemma canOpen_false_of_losses (rm : RMState) (symbol : String)
    (h : rm.circuit_breaker_losses ≤ rm.consecutive_losses) :
    (rm.canOpenPosition symbol).2 = false := by
  unfold RMState.canOpenPosition RMState.checkCircuitBreaker
  simp [h]

lemma canOpen_true_of_clean (rm : RMState) (symbol : String)
    (h1 : rm.consecutive_losses < rm.circuit_breaker_losses)
    (h2 : rm.open_positions = [])
    (h3 : rm.account_balance = rm.session_start_balance)
    (h4 : 0 ≤ rm.max_drawdown_per_session)
    (h5 : 0 < rm.max_positions)
    (h6 : 0 < rm.max_portfolio_risk) :
    (rm.canOpenPosition symbol).2 = true := by
  have hcb : rm.checkCircuitBreaker = (rm, true) := by
    unfold RMState.checkCircuitBreaker
    rw [if_neg (by omega)]
  have hdd : rm.checkDrawdownLimits symbol = true := by
    unfold RMState.checkDrawdownLimits
    rw [h3, sub_self, zero_div, if_neg (not_lt.mpr h4)]
    simp [h2]
  have hpr : rm.calculatePortfolioRisk = 0 := by
    unfold RMState.calculatePortfolioRisk
    rw [h2]
    rfl
  unfold RMState.canOpenPosition
  dsimp only
  rw [hcb]
  dsimp only
  rw [if_neg (by simp), hdd, if_neg (by simp), h2]
  dsimp only [List.length_nil]
  rw [if_neg (by omega), hpr, if_neg (not_le.mpr h6)]

lemma recLoss_losses (rm : RMState) :
    (recLoss rm).consecutive_losses = rm.consecutive_losses + 1 := by
  unfold recLoss RMState.recordTradeResult
  simp

lemma recLoss_cbl (rm : RMState) :
    (recLoss rm).circuit_breaker_losses = rm.circuit_breaker_losses := by
  unfold recLoss RMState.recordTradeResult
  simp

lemma recLoss_ab (rm : RMState) :
    (recLoss rm).account_balance = rm.account_balance := by
  unfold recLoss RMState.recordTradeResult
  simp

lemma recLoss_ssb (rm : RMState) :
    (recLoss rm).session_start_balance = rm.session_start_balance := by
  unfold recLoss RMState.recordTradeResult
  simp

lemma recLoss_op (rm : RMState) :
    (recLoss rm).open_positions = rm.open_positions := by
  unfold recLoss RMState.recordTradeResult
  simp

lemma recLoss_mp (rm : RMState) :
    (recLoss rm).max_positions = rm.max_positions := by
  unfold recLoss RMState.recordTradeResult
  simp

lemma recLoss_mpr (rm : RMState) :
    (recLoss rm).max_portfolio_risk = rm.max_portfolio_risk := by
  unfold recLoss RMState.recordTradeResult
  simp

lemma recLoss_mdds (rm : RMState) :
    (recLoss rm).max_drawdown_per_session = rm.max_drawdown_per_session := by
  unfold recLoss RMState.recordTradeResult
  simp

/-! ## Claim theorems -/

/-- C1: close conditions on an open position are evaluated in the fixed
priority order trailing_stop, then stop_loss, then take_profit, then
opposite_signal; the first satisfied condition determines the recorded
exit_reason, and in particular on a bar where both the trailing stop and the
fixed stop loss are hit the exit reason is trailing_stop. -/
theorem close_priority_order :
    (∀ (dir : Direction) (sl tp : ℚ) (ts : Option ℚ) (price : ℚ) (sig : Int),
       closeReason dir sl tp ts price sig =
         firstSatisfied (closeConditionList dir sl tp ts price sig))
  ∧ (∀ (dir : Direction) (sl tp : ℚ) (ts : Option ℚ) (price : ℚ) (sig : Int),
       trailingHit dir ts price = true → stopLossHit dir sl price = true →
       closeReason dir sl tp ts price sig = some "trailing_stop") := by
  constructor
  · intro dir sl tp ts price sig
    rfl
  · intro dir sl tp ts price sig h1 _
    simp [closeReason, h1]

/-- Witness for C1: a long position with stop loss 1990 and trailing stop
2000 at price 1985 (both stops hit) closes with reason trailing_stop. -/
theorem close_priority_order_witness :
    closeReason Direction.long 1990 2020 (some 2000) 1985 0 =
      some "trailing_stop" :=
  close_priority_order.2 Direction.long 1990 2020 (some 2000) 1985 0
    (by norm_num [trailingHit]) (by norm_num [stopLossHit])

/-- C2: the trailing stop is monotone while a position is open: the
recomputed candidate replaces the current trailing stop only when it
tightens it (up for long, down for short), both in the backtester loop and
in RiskManager.update_trailing_stops; over one simulation step that keeps
the position open, the trailing stop never loosens. -/
theorem trailing_stop_monotonicity :
    (∀ (dir : Direction) (ts : Option ℚ) (price : ℚ) (atr : Option ℚ),
       trailImproves dir ts (newTrailingStop dir ts price atr))
  ∧ (∀ (direction : String) (sl price atr_val : ℚ),
       (direction = "buy" → sl ≤ rmTrailingUpdate direction sl price atr_val)
     ∧ (direction ≠ "buy" →
         rmTrailingUpdate direction sl price atr_val ≤ sl))
  ∧ (∀ (cfg : SimConfig) (s : SimState) (row : Row) (p : Position),
       s.position = some p →
       closeReason p.direction p.stop_loss p.take_profit
         (newTrailingStop p.direction s.trailing_stop row.close row.atr)
         row.close row.signal_low = none →
       (simStep cfg s row).position = some p ∧
       trailImproves p.direction s.trailing_stop
         (simStep cfg s row).trailing_stop) := by
  refine ⟨newTrailingStop_improves, ?_, ?_⟩
  · intro direction sl price atr_val
    constructor
    · intro h
      rw [rmTrailingUpdate, if_pos h]
      dsimp only
      split
      · next hlt => exact le_of_lt hlt
      · exact le_refl sl
    · intro h
      rw [rmTrailingUpdate, if_neg h]
      dsimp only
      split
      · next hlt => exact le_of_lt hlt
      · exact le_refl sl
  · intro cfg s row p hp hcr
    have hdd_pos : (ddPhase cfg s).position = some p := hp
    have hdd_ts : (ddPhase cfg s).trailing_stop = s.trailing_stop := rfl
    have hpp : positionPhase cfg (ddPhase cfg s) row =
        { ddPhase cfg s with trailing_stop :=
            (newTrailingStop p.direction s.trailing_stop row.close
              row.atr) } := by
      unfold positionPhase
      rw [hdd_pos]
      dsimp only
      rw [hdd_ts, hcr]
      simp [hdd_pos]
    have hep : entryPhase cfg (positionPhase cfg (ddPhase cfg s) row) row =
        positionPhase cfg (ddPhase cfg s) row :=
      entryPhase_of_some cfg _ row p (by rw [hpp]; exact hdd_pos)
    constructor
    · show (simStep cfg s row).position = some p
      unfold simStep
      rw [(curvePhase_preserved cfg _ row).2.1, hep, hpp]
      exact hdd_pos
    · unfold simStep
      rw [(curvePhase_preserved cfg _ row).2.2.1, hep, hpp]
      exact newTrailingStop_improves p.direction s.trailing_stop row.close
        row.atr

/-- Witness for C2: a long position with trailing stop 95 on a bar at price
101 with ATR 2 stays open and its trailing stop does not move down. -/
theorem trailing_stop_monotonicity_witness :
    (simStep defaultConfig sampleOpenState sampleRow).position =
      some samplePos ∧
    trailImproves samplePos.direction sampleOpenState.trailing_stop
      (simStep defaultConfig sampleOpenState sampleRow).trailing_stop :=
  trailing_stop_monotonicity.2.2 defaultConfig sampleOpenState sampleRow
    samplePos rfl
    (by norm_num [closeReason, newTrailingStop, trailingHit, stopLossHit,
      takeProfitHit, oppositeSignal, samplePos, sampleRow, sampleOpenState,
      ATR_MULTIPLIER])

/-- C3: the balance changes only at trade close, by adding that trade's
realized PnL (commission included); it is never mutated at position open, in
the drawdown phase or in the equity-curve phase, and after any run the
final balance equals the starting balance 10000 plus the sum of pnl over the
produced trade list (entry-log records carry no pnl key and contribute
nothing). -/
theorem balance_conservation :
    ∀ (cfg : SimConfig) (rows : List Row) (s : SimState) (row : Row),
      (runSim cfg rows).balance = 10000 + totalPnl (runSim cfg rows).trades
    ∧ (ddPhase cfg s).balance = s.balance
    ∧ (entryPhase cfg s row).balance = s.balance
    ∧ (curvePhase cfg s row).balance = s.balance := by
  intro cfg rows s row
  refine ⟨?_, rfl, (entryPhase_preserved cfg s row).1,
    (curvePhase_preserved cfg s row).1⟩
  have h := foldl_conserves cfg rows initState
  have h0 : initState.balance - totalPnl initState.trades = (10000 : ℚ) := by
    simp [initState, totalPnl]
  rw [h0] at h
  unfold runSim
  linarith

/-- C4: once the running drawdown exceeds max_drawdown the
drawdown_triggered flag becomes true, stays true for the rest of the run,
and while it is true no entry-log record is appended and no new position is
opened; a position already open may still close normally with its recorded
exit reason. -/
theorem sticky_drawdown_halt :
    ∀ (cfg : SimConfig) (s : SimState) (row : Row),
      (cfg.max_drawdown < runningDrawdown s →
        (simStep cfg s row).drawdown_triggered = true)
    ∧ (s.drawdown_triggered = true →
        (simStep cfg s row).drawdown_triggered = true)
    ∧ ((simStep cfg s row).drawdown_triggered = true →
        (∀ t ∈ (simStep cfg s row).trades,
            t ∈ s.trades ∨ t.status ≠ some "open")
      ∧ ((simStep cfg s row).position = s.position ∨
          (simStep cfg s row).position = none))
    ∧ (∀ rows : List Row, s.drawdown_triggered = true →
        (rows.foldl (simStep cfg) s).drawdown_triggered = true)
    ∧ (∀ (p : Position) (r : String), s.drawdown_triggered = true →
        s.position = some p →
        closeReason p.direction p.stop_loss p.take_profit
          (newTrailingStop p.direction s.trailing_stop row.close row.atr)
          row.close row.signal_low = some r →
        (simStep cfg s row).position = none ∧
        ∃ rec : TradeRec, (simStep cfg s row).trades = s.trades ++ [rec] ∧
          rec.exit_reason = some r) := by
  intro cfg s row
  refine ⟨?_, ?_, ?_, ?_, ?_⟩
  · intro h
    rw [simStep_flag_eq]
    simp [ddPhase, h]
  · exact simStep_flag_of_true cfg s row
  · intro hfl
    have hstf : (positionPhase cfg (ddPhase cfg s) row).drawdown_triggered =
        true := by
      rw [(positionPhase_preserved cfg _ row).1]
      rw [simStep_flag_eq] at hfl
      exact hfl
    have he := entryPhase_of_flag cfg (positionPhase cfg (ddPhase cfg s) row)
      row hstf
    have htr : (simStep cfg s row).trades =
        (positionPhase cfg (ddPhase cfg s) row).trades := by
      unfold simStep
      rw [(curvePhase_preserved cfg _ row).2.2.2.2.2, he]
    have hpo : (simStep cfg s row).position =
        (positionPhase cfg (ddPhase cfg s) row).position := by
      unfold simStep
      rw [(curvePhase_preserved cfg _ row).2.1, he]
    constructor
    · intro t ht
      rw [htr] at ht
      rcases positionPhase_shape cfg (ddPhase cfg s) row with
        ⟨_, _, h3⟩ | ⟨_, rec, hst, h3⟩
      · rw [h3, ddPhase_trades] at ht
        exact Or.inl ht
      · rw [h3, ddPhase_trades] at ht
        rcases List.mem_append.mp ht with hm | hm
        · exact Or.inl hm
        · right
          have ht' : t = rec := by simpa using hm
          rw [ht', hst]
          simp
    · rcases positionPhase_shape cfg (ddPhase cfg s) row with
        ⟨h1, _, _⟩ | ⟨h1, _⟩
      · left
        rw [hpo, h1, ddPhase_position]
      · right
        rw [hpo, h1]
  · intro rows h
    exact foldl_flag_of_true cfg rows s h
  · intro p r hfl hp hcr
    have hdd_pos : (ddPhase cfg s).position = some p := hp
    have hdd_ts : (ddPhase cfg s).trailing_stop = s.trailing_stop := rfl
    have hpp : positionPhase cfg (ddPhase cfg s) row =
        { ddPhase cfg s with
          balance := ((ddPhase cfg s).balance +
            calculate_pnl cfg.commission p row.close)
          equity := ((ddPhase cfg s).balance +
            calculate_pnl cfg.commission p row.close)
          position := none
          trailing_stop := none
          trades := ((ddPhase cfg s).trades ++ [closedTradeRec p row
            (newTrailingStop p.direction s.trailing_stop row.close row.atr)
            (calculate_pnl cfg.commission p row.close)
            ((ddPhase cfg s).balance +
              calculate_pnl cfg.commission p row.close) r]) } := by
      unfold positionPhase
      rw [hdd_pos]
      dsimp only
      rw [hdd_ts, hcr]
    have hstf : (positionPhase cfg (ddPhase cfg s) row).drawdown_triggered =
        true := by
      rw [(positionPhase_preserved cfg _ row).1]
      exact ddPhase_flag_of_true cfg s hfl
    have he := entryPhase_of_flag cfg (positionPhase cfg (ddPhase cfg s) row)
      row hstf
    constructor
    · unfold simStep
      rw [(curvePhase_preserved cfg _ row).2.1, he, hpp]
    · refine ⟨closedTradeRec p row
        (newTrailingStop p.direction s.trailing_stop row.close row.atr)
        (calculate_pnl cfg.commission p row.close)
        ((ddPhase cfg s).balance + calculate_pnl cfg.commission p row.close)
        r, ?_, rfl⟩
      unfold simStep
      rw [(curvePhase_preserved cfg _ row).2.2.2.2.2, he, hpp]
      rfl

/-- Witness for C4: with the halt flag already set and a bar at price 80,
the flag stays set and the open position still closes. -/
theorem sticky_drawdown_halt_witness :
    (simStep defaultConfig sampleHaltState sampleCloseRow).drawdown_triggered
      = true ∧
    (simStep defaultConfig sampleHaltState sampleCloseRow).position =
      none := by
  have h := sticky_drawdown_halt defaultConfig sampleHaltState sampleCloseRow
  refine ⟨h.2.1 rfl, ?_⟩
  exact (h.2.2.2.2 samplePos "trailing_stop" rfl rfl
    (by norm_num [closeReason, newTrailingStop, trailingHit, samplePos,
      sampleCloseRow, sampleHaltState, sampleOpenState, ATR_MULTIPLIER])).1

/-- C5 counterexample: after five consecutive recorded losses,
can_open_position is false, but recording one further winning trade (with no
reset_session call) makes can_open_position true again, because
can_open_position re-derives the breaker from consecutive_losses and never
consults the circuit_breaker_triggered flag. -/
theorem circuit_breaker_not_sticky :
    (rmAfterFiveLosses.canOpenPosition "XAUUSD").2 = false ∧
    ((rmAfterFiveLosses.recordTradeResult "XAUUSD" 25 "win").canOpenPosition
        "XAUUSD").2 = true := by
  constructor
  · apply canOpen_false_of_losses
    simp [rmAfterFiveLosses, recLoss_losses, recLoss_cbl, rmDefault]
  · refine canOpen_true_of_clean _ _ ?_ ?_ ?_ ?_ ?_ ?_
    · simp [RMState.recordTradeResult, rmAfterFiveLosses, recLoss_cbl,
        rmDefault]
    · simp [RMState.recordTradeResult, rmAfterFiveLosses, recLoss_op,
        rmDefault]
    · simp [RMState.recordTradeResult, rmAfterFiveLosses, recLoss_ab,
        recLoss_ssb, rmDefault]
    · simp [RMState.recordTradeResult, rmAfterFiveLosses, recLoss_mdds,
        rmDefault]
      norm_num
    · simp [RMState.recordTradeResult, rmAfterFiveLosses, recLoss_mp,
        rmDefault]
    · simp [RMState.recordTradeResult, rmAfterFiveLosses, recLoss_mpr,
        rmDefault]
      norm_num

/-- C5 (amended): once consecutive_losses has reached the
circuit_breaker_losses threshold, can_open_position is false for every
symbol, stays false as long as only further losses are recorded, and
reset_session clears the loss count and the breaker flag; a recorded
non-loss result, however, resets consecutive_losses and can re-enable
entries without reset_session. -/
theorem circuit_breaker_blocks_until_reset_or_win :
    ∀ (rm : RMState) (symbol : String),
      rm.circuit_breaker_losses ≤ rm.consecutive_losses →
      (rm.canOpenPosition symbol).2 = false ∧
      (∀ (s2 : String) (pnl : ℚ),
        ((rm.recordTradeResult s2 pnl "loss").canOpenPosition symbol).2 =
          false) ∧
      (rm.resetSession.consecutive_losses = 0 ∧
       rm.resetSession.circuit_breaker_triggered = false) := by
  intro rm symbol h
  refine ⟨canOpen_false_of_losses rm symbol h, ?_, rfl, rfl⟩
  intro s2 pnl
  apply canOpen_false_of_losses
  unfold RMState.recordTradeResult
  simp
  omega

/-- Witness for C5 (amended): the default manager after five recorded
losses, and after a sixth loss, refuses to open a position on any symbol. -/
theorem circuit_breaker_blocks_witness :
    (rmAfterFiveLosses.canOpenPosition "EURUSD").2 = false ∧
    ((rmAfterFiveLosses.recordTradeResult "EURUSD" (-10)
        "loss").canOpenPosition "EURUSD").2 = false := by
  have h := circuit_breaker_blocks_until_reset_or_win rmAfterFiveLosses
    "EURUSD" (by simp [rmAfterFiveLosses, recLoss_losses, recLoss_cbl,
      rmDefault])
  exact ⟨h.1, h.2.1 "EURUSD" (-10)⟩

/-- C6: the lot size at entry is risk_per_trade * balance /
(stop_distance * pip_value) when the stop distance |entry - sl| is positive
and the configured fixed lot size when it is zero; with balance 10000, risk
0.01, stop distance 10 and pip value 1 the lot size is 10, and the position
opened by the entry phase carries exactly this lot size. -/
theorem entry_lot_sizing :
    ∀ (risk balance pip fallback entry sl : ℚ),
      (0 < |entry - sl| →
        dynamicLotSize risk balance |entry - sl| pip fallback =
          risk * balance / (|entry - sl| * pip))
    ∧ (|entry - sl| = 0 →
        dynamicLotSize risk balance |entry - sl| pip fallback = fallback)
    ∧ dynamicLotSize 0.01 10000 10 1 fallback = 10
    ∧ (∀ (cfg : SimConfig) (st : SimState) (row : Row),
        st.drawdown_triggered = false → st.position = none →
        row.signal_cap = 1 →
        ((entryPhase cfg st row).position.map Position.lot_size =
          some ((enterLong cfg st.balance row).1.lot_size))) := by
  intro risk balance pip fallback entry sl
  refine ⟨?_, ?_, ?_, ?_⟩
  · intro h
    rw [dynamicLotSize, if_pos h]
  · intro h
    rw [dynamicLotSize, if_neg (by rw [h]; exact lt_irrefl 0)]
  · rw [dynamicLotSize, if_pos (by norm_num)]
    norm_num
  · intro cfg st row h1 h2 h3
    unfold entryPhase
    rw [if_neg (by rw [h1]; simp), h2]
    dsimp only
    rw [if_pos h3]
    rfl

/-- Witness for C6: stop distance 10 gives the risk formula, stop distance
0 gives the fallback, and the entry phase on a buy bar opens the position
computed by enterLong. -/
theorem entry_lot_sizing_witness :
    dynamicLotSize 0.01 10000 |110 - (100 : ℚ)| 1 0.02 =
      0.01 * 10000 / (|110 - (100 : ℚ)| * 1) ∧
    dynamicLotSize 0.01 10000 |100 - (100 : ℚ)| 1 0.02 = 0.02 ∧
    ((entryPhase defaultConfig initState buyBar).position.map
      Position.lot_size =
        some ((enterLong defaultConfig initState.balance buyBar).1.lot_size))
    := by
  refine ⟨(entry_lot_sizing 0.01 10000 1 0.02 110 100).1 (by norm_num),
    (entry_lot_sizing 0.01 10000 1 0.02 100 100).2.1 (by norm_num),
    (entry_lot_sizing 0 0 0 0 0 0).2.2.2 defaultConfig initState buyBar rfl
      rfl rfl⟩

/-- C7: the realized PnL of a position closed at a given price is
(exit - entry) * lot_size * 100000 * sign(direction) minus
commission * lot_size * 100000, with the contract size fixed at 100000. -/
theorem realized_pnl_formula :
    ∀ (commission : ℚ) (p : Position) (price : ℚ),
      calculate_pnl commission p price =
        (price - p.entry_price) * p.lot_size * 100000 * dirSign p.direction -
          commission * p.lot_size * 100000 := by
  intro c p price
  rcases hd : p.direction with _ | _ <;>
    (simp [calculate_pnl, dirSign, hd]; try ring)

/-- C8 counterexample: the summary returned for an empty trade list has no
final_balance entry, so it is not a fully populated summary containing
every field including final_balance. -/
theorem empty_trades_summary_mismatch :
    ¬ ∃ p : Perf, calculate_performance [] [] = Except.ok p ∧
      p.final_balance.isSome = true := by
  rintro ⟨p, hp, hs⟩
  have h : (⟨0, 0, 0, 0, 0, 0, SharpeVal.zero, none⟩ : Perf) = p :=
    Except.ok.inj hp
  rw [← h] at hs
  simp at hs

/-- C8 (amended): for an empty trade list the performance evaluation
returns, without raising, a zeroed summary with total_return, num_trades,
win_rate, avg_win, avg_loss, max_drawdown and sharpe_ratio all zero; the
final_balance key is absent from this empty-case summary. -/
theorem empty_trades_zeroed_summary :
    calculate_performance [] [] =
      Except.ok (⟨0, 0, 0, 0, 0, 0, SharpeVal.zero, none⟩ : Perf) := rfl

/-- C9: a run over a single buy bar appends one entry-log record (which has
no pnl key) to the trade list, and the performance evaluation of that
non-empty trade list raises KeyError at the winning-trades comprehension
instead of reporting a win rate. -/
theorem performance_raises_keyerror_on_run_trades :
    calculate_performance (runSim defaultConfig [buyBar]).trades
        (runSim defaultConfig [buyBar]).equity_curve =
      Except.error "KeyError: pnl" := by
  norm_num [runSim, simStep, ddPhase, positionPhase, entryPhase, curvePhase,
    initState, buyBar, defaultConfig, newMaxEquity, runningDrawdown,
    enterLong, openTradeRec, dynamicLotSize, calculate_performance, getPnls,
    ATR_MULTIPLIER, ATR_STOP_LOSS_MULTIPLIER, ATR_TAKE_PROFIT_MULTIPLIER]

/-- C10: RiskManager.calculate_position_size returns the constant 0.01 for
every manager state and every combination of arguments, so any two calls
return the same lot size. -/
theorem fixed_position_size_constant :
    ∀ (rm rm2 : RMState) (e1 s1 e2 s2 : ℚ) (i1 a1 r1 i2 a2 r2 : Option ℚ),
      rm.calculatePositionSize e1 s1 i1 a1 r1 = 0.01 ∧
      rm.calculatePositionSize e1 s1 i1 a1 r1 =
        rm2.calculatePositionSize e2 s2 i2 a2 r2 := by
  intro _ _ _ _ _ _ _ _ _ _ _ _
  exact ⟨rfl, rfl⟩

end Algobot
